import Mathlib

/-!
Verification of the call-invocation subsystem of holochain-rust
(`src/core/src/nucleus/ribosome/api/call.rs`).

The Rust source is shallowly embedded: `invoke_call` (the guest-facing
Call Bridge) and `reduce_call` (the state reducer for `Action::Call`)
are translated into pure Lean functions over an explicit `NucleusState`.
The `HashMap` of pending calls (`zome_calls`) is modelled as an
association list with overwrite-on-insert semantics, matching
`std::collections::HashMap::insert`.  Types that the file uses but that
are declared elsewhere in the repository (`ZomeFnCall`, `Membrane`,
`Dna`, `HolochainError`, the capability resolver) are modelled from the
specification, each marked in its doc comment.
-/

namespace HolochainCall

/-- A zome function call descriptor: target module (zome), capability
name, function name and serialized argument payload.  Structural
equality over all four fields, used as the key of the pending call
table.  Declared in the repository outside the sliced file; modelled
from the spec (Call Descriptor, section 3). -/
structure ZomeFnCall where
  zome_name : String
  cap_name : String
  fn_name : String
  fn_args : String
deriving DecidableEq, Repr

/-- Constructor mirroring `ZomeFnCall::new`. -/
def ZomeFnCall.new (zome_name cap_name fn_name fn_args : String) : ZomeFnCall :=
  ⟨zome_name, cap_name, fn_name, fn_args⟩

/-- The four-field raw argument shape the Call Bridge deserializes
(`ZomeFnCallArgs`, from `holochain_wasm_utils`). -/
structure ZomeFnCallArgs where
  zome_name : String
  cap_name : String
  fn_name : String
  fn_args : String
deriving DecidableEq, Repr

/-- `ZomeFnCall::from_args` as written in `call.rs`. -/
def ZomeFnCall.from_args (args : ZomeFnCallArgs) : ZomeFnCall :=
  ZomeFnCall.new args.zome_name args.cap_name args.fn_name args.fn_args

/-- Modelled from the spec: `same_fn_as` compares the (module,
capability, function) identity of two descriptors — the recursion guard
ignores the argument payload. -/
def ZomeFnCall.same_fn_as (a b : ZomeFnCall) : Bool :=
  a.zome_name == b.zome_name && a.cap_name == b.cap_name && a.fn_name == b.fn_name

/-- Membrane classification of a capability
(`holochain_core_types::dna::capabilities::Membrane`); modelled from
the spec: Public / SameModule (code: Zome) / OwningAgent (code: Agent)
/ KeyedGrant (code: ApiKey). -/
inductive Membrane
  | Public
  | Zome
  | Agent
  | ApiKey
deriving DecidableEq, Repr

/-- Capability type record holding the membrane, as accessed by
`cap.cap_type.membrane` in `reduce_call`. -/
structure CapabilityType where
  membrane : Membrane
deriving DecidableEq, Repr

/-- A capability; only its membrane classification is relevant to this
core (spec section 3). -/
structure Capability where
  cap_type : CapabilityType
deriving DecidableEq, Repr

/-- An executable code blob (`DnaWasm`), opaque bytes. -/
structure DnaWasm where
  code : List Nat
deriving DecidableEq, Repr

/-- Modelled from the spec: a module (zome) of the Application
Descriptor owns its executable code and its named capabilities. -/
structure Zome where
  code : DnaWasm
  capabilities : List (String × Capability)
deriving DecidableEq, Repr

/-- Modelled from the spec: the Application Descriptor (DNA) maps
module names to zomes and carries an application name. -/
structure Dna where
  name : String
  zomes : List (String × Zome)
deriving DecidableEq, Repr

/-- Specific lookup failures of the capability resolver
(`DnaError::ZomeNotFound` / `DnaError::CapabilityNotFound`; the spec
calls them ModuleNotFound / CapabilityNotFound). -/
inductive DnaError
  | ZomeNotFound (zome_name : String)
  | CapabilityNotFound (cap_name : String)
deriving DecidableEq, Repr

/-- The error kinds of `HolochainError` that appear on this path. -/
inductive HolochainError
  | DnaMissing
  | DoesNotHaveCapabilityToken
  | Dna (e : DnaError)
deriving DecidableEq, Repr

/-- A terminal call value: `Result<JsonString, HolochainError>`. -/
inductive ZomeFnResult
  | ok (payload : String)
  | err (e : HolochainError)
deriving DecidableEq, Repr

/-- Look a zome up by name in the Application Descriptor. -/
def Dna.get_zome (dna : Dna) (zome_name : String) : Option Zome :=
  (dna.zomes.find? (fun p => p.1 == zome_name)).map Prod.snd

/-- Look a capability up by name inside a zome. -/
def Zome.get_capability (z : Zome) (cap_name : String) : Option Capability :=
  (z.capabilities.find? (fun p => p.1 == cap_name)).map Prod.snd

/-- Modelled from the spec: the capability resolver — a pure function
of (Application Descriptor, Call Descriptor) yielding the capability or
its specific lookup failure (declared in `nucleus/mod.rs`, outside the
sliced file). -/
def get_capability_with_zome_call (dna : Dna) (zome_call : ZomeFnCall) :
    Except HolochainError Capability :=
  match dna.get_zome zome_call.zome_name with
  | none => Except.error (HolochainError.Dna (DnaError.ZomeNotFound zome_call.zome_name))
  | some z =>
    match z.get_capability zome_call.cap_name with
    | none => Except.error (HolochainError.Dna (DnaError.CapabilityNotFound zome_call.cap_name))
    | some cap => Except.ok cap

/-- Modelled from the spec: locate the executable code blob for a
module (`Dna::get_wasm_from_zome_name`, declared outside the sliced
file). -/
def Dna.get_wasm_from_zome_name (dna : Dna) (zome_name : String) : Option DnaWasm :=
  (dna.get_zome zome_name).map Zome.code

/-- The action variants relevant here.  The real enum has further
variants; `Other` stands for every non-`Call` variant. -/
inductive Action
  | Call (call : ZomeFnCall)
  | Other
deriving DecidableEq, Repr

/-- An action wrapper carrying its action (`ActionWrapper::new`). -/
structure ActionWrapper where
  action : Action
deriving DecidableEq, Repr

/-- The pending call table: a map from descriptor to optional terminal
value, embedded as an association list.  `zcInsert` has the overwrite
semantics of `HashMap::insert`. -/
abbrev ZomeCallTable := List (ZomeFnCall × Option ZomeFnResult)

/-- `HashMap::insert`: overwrite the value at the key, or append the
binding when the key is absent. -/
def zcInsert (m : ZomeCallTable) (k : ZomeFnCall) (v : Option ZomeFnResult) : ZomeCallTable :=
  match m with
  | [] => [(k, v)]
  | (k0, v0) :: rest =>
    if k0 = k then (k, v) :: rest else (k0, v0) :: zcInsert rest k v

/-- `HashMap::get`: `none` = key absent, `some v` = key present with
value `v` (itself an `Option`: pending or terminal). -/
def zcLookup (m : ZomeCallTable) (k : ZomeFnCall) : Option (Option ZomeFnResult) :=
  match m with
  | [] => none
  | (k0, v0) :: rest => if k0 = k then some v0 else zcLookup rest k

/-- `NucleusState`, restricted to the fields `reduce_call` touches:
the optional Application Descriptor and the pending call table. -/
structure NucleusState where
  dna : Option Dna
  zome_calls : ZomeCallTable
deriving DecidableEq, Repr

/-- The handoff to the independent execution context:
`launch_zome_fn_call(context, fn_call, &code, dna.name)`. -/
structure LaunchedCall where
  fn_call : ZomeFnCall
  code : DnaWasm
  dna_name : String
deriving DecidableEq, Repr

/-- Result of one `reduce_call` invocation: either the mutated state
together with the launch request it fired (if any), or a fatal fault
(`unreachable!()` on a non-Call action, or the `expect` on a missing
wasm blob). -/
inductive ReduceOutcome
  | ok (state : NucleusState) (launched : Option LaunchedCall)
  | fatal (msg : String)
deriving DecidableEq, Repr

/-- The state the outcome carries, when it is not fatal. -/
def ReduceOutcome.state? : ReduceOutcome → Option NucleusState
  | .ok s _ => some s
  | .fatal _ => none

/-- `reduce_call` from `call.rs`, translated clause for clause:
extract the `ZomeFnCall` (non-Call actions hit `unreachable!()`);
if no DNA is loaded record `Err(DnaMissing)`; resolve the capability
and record its failure on a miss; evaluate the membrane (only `Public`
may call); locate the wasm (its absence is a fatal `expect`); mark the
entry pending and launch execution. -/
def reduce_call (state : NucleusState) (action_wrapper : ActionWrapper) : ReduceOutcome :=
  match action_wrapper.action with
  | Action.Other => ReduceOutcome.fatal "internal error: entered unreachable code"
  | Action.Call fn_call =>
    match state.dna with
    | none =>
      ReduceOutcome.ok
        { state with
          zome_calls :=
            zcInsert state.zome_calls fn_call (some (ZomeFnResult.err HolochainError.DnaMissing)) }
        none
    | some dna =>
      match get_capability_with_zome_call dna fn_call with
      | Except.error e =>
        ReduceOutcome.ok
          { state with
            zome_calls := zcInsert state.zome_calls fn_call (some (ZomeFnResult.err e)) }
          none
      | Except.ok cap =>
        let can_call :=
          match cap.cap_type.membrane with
          | Membrane.Public => true
          | Membrane.Zome => false
          | Membrane.Agent => false
          | Membrane.ApiKey => false
        if !can_call then
          ReduceOutcome.ok
            { state with
              zome_calls :=
                zcInsert state.zome_calls fn_call
                  (some (ZomeFnResult.err HolochainError.DoesNotHaveCapabilityToken)) }
            none
        else
          match dna.get_wasm_from_zome_name fn_call.zome_name with
          | none =>
            ReduceOutcome.fatal
              "zome not found, Should have failed before when getting capability."
          | some code =>
            ReduceOutcome.ok
              { state with zome_calls := zcInsert state.zome_calls fn_call none }
              (some ⟨fn_call, code, dna.name⟩)

/-- The distinguished guest-visible return codes produced by
`invoke_call` before any dispatch. -/
inductive RibosomeErrorCode
  | ArgumentDeserializationFailed
  | RecursiveCallForbidden
deriving DecidableEq, Repr

/-- Outcome of the Call Bridge entry point before blocking: either an
immediate distinguished error code (no action dispatched, no observer
registered, no state change), or the dispatch of a `Call` action
wrapper together with the registration of a one-shot observer. -/
inductive InvokeOutcome
  | err (code : RibosomeErrorCode)
  | dispatch (action_wrapper : ActionWrapper)
deriving DecidableEq, Repr

/-- `invoke_call` from `call.rs` up to its suspension point, translated
clause for clause.  The serde deserialization of the raw payload lives
outside the sliced file, so its result is the parameter `parsed`
(`none` = `ZomeFnCallArgs::try_from` failed).  `runtime_zome_call` is
`runtime.zome_call`, the descriptor currently executing in this guest
context. -/
def invoke_call (runtime_zome_call : ZomeFnCall) (parsed : Option ZomeFnCallArgs) :
    InvokeOutcome :=
  match parsed with
  | none => InvokeOutcome.err RibosomeErrorCode.ArgumentDeserializationFailed
  | some input =>
    let zome_call := ZomeFnCall.from_args input
    if zome_call.same_fn_as runtime_zome_call then
      InvokeOutcome.err RibosomeErrorCode.RecursiveCallForbidden
    else
      InvokeOutcome.dispatch ⟨Action.Call zome_call⟩

/-- One evaluation step of the observer closure registered by
`invoke_call`: with no stored value it stays pending; with a value it
sends over the one-shot channel and reports satisfied — but the send is
wrapped in `expect("observer called after done")`, so a send whose
receiver has vanished panics the evaluating thread. -/
inductive ObserverStep
  | done
  | pending
  | crashed (msg : String)
deriving DecidableEq, Repr

/-- The observer closure of `invoke_call` (lines 63-80 of `call.rs`),
as a function of the table value for the descriptor and of whether the
receiving end of the one-shot channel is still alive. -/
def observer_sensor (maybe_result : Option ZomeFnResult) (receiver_waiting : Bool) :
    ObserverStep :=
  match maybe_result with
  | some _ =>
    if receiver_waiting then ObserverStep.done
    else ObserverStep.crashed "observer called after done"
  | none => ObserverStep.pending

/-! Concrete fixtures mirroring the test DNA of `call.rs`. -/

/-- The call descriptor of the tests: `ZomeFnCall::new("test_zome", "test_cap", "test", "{}")`. -/
def exCall : ZomeFnCall := ⟨"test_zome", "test_cap", "test", "{}"⟩

/-- A capability with a `Public` membrane. -/
def exCap : Capability := ⟨⟨Membrane.Public⟩⟩

/-- A capability with a `Zome` membrane (deny-by-default variant). -/
def exZomeCap : Capability := ⟨⟨Membrane.Zome⟩⟩

/-- A sample wasm blob. -/
def exWasm : DnaWasm := ⟨[0, 97, 115, 109]⟩

/-- A DNA whose zome `test_zome` exposes `test_cap` with a `Public` membrane. -/
def exDnaPublic : Dna := ⟨"test_dna", [("test_zome", ⟨exWasm, [("test_cap", exCap)]⟩)]⟩

/-- A DNA whose zome `test_zome` exposes `test_cap` with a `Zome` membrane. -/
def exDnaZome : Dna := ⟨"test_dna", [("test_zome", ⟨exWasm, [("test_cap", exZomeCap)]⟩)]⟩

/-- A call descriptor whose zome is absent from `exDnaPublic`. -/
def exBadCall : ZomeFnCall := ⟨"bad_zome", "test_cap", "test", "{}"⟩

/-- A descriptor distinct from `exCall`, used to watch unrelated table keys. -/
def exOtherCall : ZomeFnCall := ⟨"other_zome", "other_cap", "other_fn", "{}"⟩

/-! Helper lemmas about the table embedding of `HashMap`. -/

theorem zcLookup_insert_self (m : ZomeCallTable) (k : ZomeFnCall) (v : Option ZomeFnResult) :
    zcLookup (zcInsert m k v) k = some v := by
  induction m with
  | nil => simp [zcInsert, zcLookup]
  | cons hd tl ih =>
    obtain ⟨k0, v0⟩ := hd
    by_cases h : k0 = k
    · simp [zcInsert, zcLookup, h]
    · simp [zcInsert, zcLookup, h, ih]

theorem zcLookup_insert_ne (m : ZomeCallTable) (k k' : ZomeFnCall)
    (v : Option ZomeFnResult) (h : k' ≠ k) :
    zcLookup (zcInsert m k v) k' = zcLookup m k' := by
  induction m with
  | nil => simp [zcInsert, zcLookup, Ne.symm h]
  | cons hd tl ih =>
    obtain ⟨k0, v0⟩ := hd
    by_cases hk : k0 = k
    · subst hk
      simp [zcInsert, zcLookup, Ne.symm h]
    · simp [zcInsert, zcLookup, hk, ih]

theorem zcLookup_insert_isSome (m : ZomeCallTable) (k : ZomeFnCall)
    (v : Option ZomeFnResult) (k' : ZomeFnCall) (h : (zcLookup m k').isSome) :
    (zcLookup (zcInsert m k v) k').isSome := by
  by_cases hk : k' = k
  · subst hk
    simp [zcLookup_insert_self]
  · rwa [zcLookup_insert_ne m k k' v hk]

/-- Inversion: whenever `reduce_call` on a `Call` action returns a
state, that state keeps the DNA and its table is exactly one
`zcInsert` at the call descriptor. -/
theorem reduce_call_ok_inversion (s : NucleusState) (c : ZomeFnCall)
    (s2 : NucleusState) (l : Option LaunchedCall)
    (h : reduce_call s ⟨Action.Call c⟩ = ReduceOutcome.ok s2 l) :
    s2.dna = s.dna ∧ ∃ v, s2.zome_calls = zcInsert s.zome_calls c v := by
  cases hdna : s.dna with
  | none =>
    simp [reduce_call, hdna] at h
    obtain ⟨h1, h2⟩ := h
    subst h1
    exact ⟨hdna.symm ▸ rfl, _, rfl⟩
  | some dna =>
    cases hcap : get_capability_with_zome_call dna c with
    | error e =>
      simp [reduce_call, hdna, hcap] at h
      obtain ⟨h1, h2⟩ := h
      subst h1
      exact ⟨rfl, _, rfl⟩
    | ok cap =>
      cases hmem : cap.cap_type.membrane with
      | Public =>
        cases hcode : dna.get_wasm_from_zome_name c.zome_name with
        | none => simp [reduce_call, hdna, hcap, hmem, hcode] at h
        | some code =>
          simp [reduce_call, hdna, hcap, hmem, hcode] at h
          obtain ⟨h1, h2⟩ := h
          subst h1
          exact ⟨rfl, _, rfl⟩
      | Zome =>
        simp [reduce_call, hdna, hcap, hmem] at h
        obtain ⟨h1, h2⟩ := h
        subst h1
        exact ⟨rfl, _, rfl⟩
      | Agent =>
        simp [reduce_call, hdna, hcap, hmem] at h
        obtain ⟨h1, h2⟩ := h
        subst h1
        exact ⟨rfl, _, rfl⟩
      | ApiKey =>
        simp [reduce_call, hdna, hcap, hmem] at h
        obtain ⟨h1, h2⟩ := h
        subst h1
        exact ⟨rfl, _, rfl⟩

/-! Claim theorems. -/

/-- C1 (counterexample): the Pending Call Table is NOT write-once.
`reduce_call` inserts unconditionally (`HashMap::insert` overwrites),
so processing a second `Call` action for a descriptor that already
holds a terminal value `Ok("done")` resets that entry — here to
`Err(DnaMissing)` — contradicting the claim that a terminal value,
once written, never changes. -/
theorem c1_write_once_counterexample :
    zcLookup ([(exCall, some (ZomeFnResult.ok "done"))] : ZomeCallTable) exCall
      = some (some (ZomeFnResult.ok "done")) ∧
    (reduce_call ⟨none, [(exCall, some (ZomeFnResult.ok "done"))]⟩
        ⟨Action.Call exCall⟩).state? =
      some ⟨none, [(exCall, some (ZomeFnResult.err HolochainError.DnaMissing))]⟩ ∧
    ZomeFnResult.ok "done" ≠ ZomeFnResult.err HolochainError.DnaMissing := by
  refine ⟨by decide, by decide, by decide⟩

/-- C1 (amended): `reduce_call` never removes a descriptor from the
Pending Call Table and leaves every entry other than the dispatched
descriptor's unchanged; the dispatched descriptor's own entry, however,
is overwritten unconditionally, so write-once does not hold across a
second `Call` action for the same descriptor. -/
theorem c1_reduce_call_no_removal (s : NucleusState) (c : ZomeFnCall)
    (s2 : NucleusState) (l : Option LaunchedCall)
    (h : reduce_call s ⟨Action.Call c⟩ = ReduceOutcome.ok s2 l) :
    (∀ d, d ≠ c → zcLookup s2.zome_calls d = zcLookup s.zome_calls d) ∧
    (∀ d, (zcLookup s.zome_calls d).isSome → (zcLookup s2.zome_calls d).isSome) := by
  obtain ⟨-, v, hv⟩ := reduce_call_ok_inversion s c s2 l h
  constructor
  · intro d hd
    rw [hv, zcLookup_insert_ne s.zome_calls c d v hd]
  · intro d hd
    rw [hv]
    exact zcLookup_insert_isSome s.zome_calls c v d hd

/-- C1 witness: processing `Call exCall` on a table holding an entry
for `exOtherCall` leaves that other entry untouched. -/
theorem c1_reduce_call_no_removal_witness :
    zcLookup
      (zcInsert [(exOtherCall, some (ZomeFnResult.ok "w"))] exCall
        (some (ZomeFnResult.err HolochainError.DnaMissing)))
      exOtherCall
      = zcLookup ([(exOtherCall, some (ZomeFnResult.ok "w"))] : ZomeCallTable) exOtherCall := by
  have h :=
    (c1_reduce_call_no_removal ⟨none, [(exOtherCall, some (ZomeFnResult.ok "w"))]⟩ exCall
        ⟨none, zcInsert [(exOtherCall, some (ZomeFnResult.ok "w"))] exCall
          (some (ZomeFnResult.err HolochainError.DnaMissing))⟩ none rfl).1
      exOtherCall (by decide)
  exact h

/-- C2: a resolved capability whose membrane is any non-`Public`
variant (`Zome`, `Agent`, `ApiKey`) is always denied: the reducer
records `Err(DoesNotHaveCapabilityToken)` against the descriptor and
launches no execution. -/
theorem c2_reduce_call_denies_non_public
    (s : NucleusState) (dna : Dna) (c : ZomeFnCall) (cap : Capability)
    (hdna : s.dna = some dna)
    (hcap : get_capability_with_zome_call dna c = Except.ok cap)
    (hm : cap.cap_type.membrane ≠ Membrane.Public) :
    reduce_call s ⟨Action.Call c⟩ =
      ReduceOutcome.ok
        { s with
          zome_calls :=
            zcInsert s.zome_calls c
              (some (ZomeFnResult.err HolochainError.DoesNotHaveCapabilityToken)) }
        none := by
  cases hmem : cap.cap_type.membrane with
  | Public => exact absurd hmem hm
  | Zome => simp [reduce_call, hdna, hcap, hmem]
  | Agent => simp [reduce_call, hdna, hcap, hmem]
  | ApiKey => simp [reduce_call, hdna, hcap, hmem]

/-- C2 witness: the concrete call against `exDnaZome` (membrane
`Zome`) is denied with `DoesNotHaveCapabilityToken` and nothing is
launched. -/
theorem c2_denies_non_public_witness :
    reduce_call ⟨some exDnaZome, []⟩ ⟨Action.Call exCall⟩ =
      ReduceOutcome.ok
        ⟨some exDnaZome,
          [(exCall, some (ZomeFnResult.err HolochainError.DoesNotHaveCapabilityToken))]⟩
        none := by
  exact c2_reduce_call_denies_non_public ⟨some exDnaZome, []⟩ exDnaZome exCall exZomeCap
    rfl rfl (by decide)

/-- C3: an incoming call whose (module, capability, function) identity
equals the currently executing call's is rejected immediately with
`RecursiveCallForbidden`: no `Call` action is dispatched (hence no
observer, no blocking, and no table entry — those happen only on
dispatch). -/
theorem c3_recursion_guard (cur : ZomeFnCall) (input : ZomeFnCallArgs)
    (h : (ZomeFnCall.from_args input).same_fn_as cur = true) :
    invoke_call cur (some input) = InvokeOutcome.err RibosomeErrorCode.RecursiveCallForbidden ∧
    ∀ w, invoke_call cur (some input) ≠ InvokeOutcome.dispatch w := by
  refine ⟨by simp [invoke_call, h], fun w => by simp [invoke_call, h]⟩

/-- C3 witness: a payload naming the same (zome, cap, fn) as the
executing call but with different arguments is still rejected. -/
theorem c3_recursion_guard_witness :
    invoke_call exCall (some ⟨"test_zome", "test_cap", "test", "other_args"⟩) =
      InvokeOutcome.err RibosomeErrorCode.RecursiveCallForbidden := by
  exact (c3_recursion_guard exCall ⟨"test_zome", "test_cap", "test", "other_args"⟩
    (by decide)).1

/-- C4: with no DNA loaded, the reducer records `Err(DnaMissing)` for
the descriptor and returns at once — no capability resolution, no
launch. -/
theorem c4_reduce_call_dna_missing (s : NucleusState) (c : ZomeFnCall)
    (h : s.dna = none) :
    reduce_call s ⟨Action.Call c⟩ =
      ReduceOutcome.ok
        { s with
          zome_calls :=
            zcInsert s.zome_calls c (some (ZomeFnResult.err HolochainError.DnaMissing)) }
        none := by
  simp [reduce_call, h]

/-- C4 witness: the concrete empty state. -/
theorem c4_dna_missing_witness :
    reduce_call ⟨none, []⟩ ⟨Action.Call exCall⟩ =
      ReduceOutcome.ok ⟨none, [(exCall, some (ZomeFnResult.err HolochainError.DnaMissing))]⟩
        none := by
  exact c4_reduce_call_dna_missing ⟨none, []⟩ exCall rfl

/-- C5: a call whose capability resolves with a `Public` membrane and
whose zome code exists is marked pending (key present, value `none`)
and handed off with the code, the descriptor, and the DNA name; the
reducer returns the launch request instead of waiting on it. -/
theorem c5_reduce_call_public_launches
    (s : NucleusState) (dna : Dna) (c : ZomeFnCall) (cap : Capability) (code : DnaWasm)
    (hdna : s.dna = some dna)
    (hcap : get_capability_with_zome_call dna c = Except.ok cap)
    (hm : cap.cap_type.membrane = Membrane.Public)
    (hcode : dna.get_wasm_from_zome_name c.zome_name = some code) :
    reduce_call s ⟨Action.Call c⟩ =
      ReduceOutcome.ok { s with zome_calls := zcInsert s.zome_calls c none }
        (some ⟨c, code, dna.name⟩) := by
  simp [reduce_call, hdna, hcap, hm, hcode]

/-- C5 witness: the concrete public call transitions the table
empty→pending and launches `(exWasm, exCall, "test_dna")`. -/
theorem c5_public_launches_witness :
    reduce_call ⟨some exDnaPublic, []⟩ ⟨Action.Call exCall⟩ =
      ReduceOutcome.ok ⟨some exDnaPublic, [(exCall, none)]⟩
        (some ⟨exCall, exWasm, "test_dna"⟩) := by
  exact c5_reduce_call_public_launches ⟨some exDnaPublic, []⟩ exDnaPublic exCall exCap exWasm
    rfl rfl rfl rfl

/-- C6: when the resolver fails, the reducer records the resolver's
own specific failure kind (`ZomeNotFound` or `CapabilityNotFound`) as
the terminal value in the very table slot a success would use, and
launches nothing. -/
theorem c6_reduce_call_records_lookup_failure
    (s : NucleusState) (dna : Dna) (c : ZomeFnCall) (e : HolochainError)
    (hdna : s.dna = some dna)
    (hcap : get_capability_with_zome_call dna c = Except.error e) :
    reduce_call s ⟨Action.Call c⟩ =
      ReduceOutcome.ok
        { s with zome_calls := zcInsert s.zome_calls c (some (ZomeFnResult.err e)) }
        none ∧
    ((∃ z, e = HolochainError.Dna (DnaError.ZomeNotFound z)) ∨
      (∃ cn, e = HolochainError.Dna (DnaError.CapabilityNotFound cn))) := by
  constructor
  · simp [reduce_call, hdna, hcap]
  · unfold get_capability_with_zome_call at hcap
    cases hz : dna.get_zome c.zome_name with
    | none =>
      simp only [hz] at hcap
      rw [Except.error.injEq] at hcap
      exact Or.inl ⟨c.zome_name, hcap.symm⟩
    | some z =>
      simp only [hz] at hcap
      cases hc : z.get_capability c.cap_name with
      | none =>
        simp only [hc] at hcap
        rw [Except.error.injEq] at hcap
        exact Or.inr ⟨c.cap_name, hcap.symm⟩
      | some cap =>
        simp only [hc] at hcap
        exact Except.noConfusion hcap

/-- C6 witness: a call against a DNA that lacks the zome records the
specific `ZomeNotFound` failure in the descriptor's slot. -/
theorem c6_lookup_failure_witness :
    reduce_call ⟨some exDnaPublic, []⟩ ⟨Action.Call exBadCall⟩ =
      ReduceOutcome.ok
        ⟨some exDnaPublic,
          [(exBadCall,
            some (ZomeFnResult.err (HolochainError.Dna (DnaError.ZomeNotFound "bad_zome"))))]⟩
        none := by
  exact (c6_reduce_call_records_lookup_failure ⟨some exDnaPublic, []⟩ exDnaPublic exBadCall
    (HolochainError.Dna (DnaError.ZomeNotFound "bad_zome")) rfl rfl).1

/-- C7: a payload that fails to deserialize into the four-field shape
yields the distinguished `ArgumentDeserializationFailed` code for every
possible currently-executing call — i.e. before the recursion guard —
and dispatches nothing (so no state change). -/
theorem c7_deserialization_failure (cur : ZomeFnCall) :
    invoke_call cur none = InvokeOutcome.err RibosomeErrorCode.ArgumentDeserializationFailed ∧
    ∀ w, invoke_call cur none ≠ InvokeOutcome.dispatch w := by
  exact ⟨rfl, fun w h => by simp [invoke_call] at h⟩

/-- C8: once capability resolution succeeded against a DNA, the wasm
lookup for the same zome name cannot fail, so the `expect` branch of
`reduce_call` is unreachable: for any state holding that DNA, the
reducer never returns a fatal fault for this call. -/
theorem c8_wasm_present_after_cap_success
    (dna : Dna) (c : ZomeFnCall) (cap : Capability)
    (h : get_capability_with_zome_call dna c = Except.ok cap) :
    (dna.get_wasm_from_zome_name c.zome_name).isSome ∧
    ∀ s : NucleusState, s.dna = some dna →
      ∀ msg, reduce_call s ⟨Action.Call c⟩ ≠ ReduceOutcome.fatal msg := by
  have hwasm : (dna.get_wasm_from_zome_name c.zome_name).isSome := by
    unfold get_capability_with_zome_call at h
    cases hz : dna.get_zome c.zome_name with
    | none => rw [hz] at h; exact absurd h (by simp)
    | some z => simp [Dna.get_wasm_from_zome_name, hz]

  refine ⟨hwasm, fun s hdna msg => ?_⟩
  cases hcode : dna.get_wasm_from_zome_name c.zome_name with
  | none => rw [hcode] at hwasm; exact absurd hwasm (by simp)
  | some code =>
    cases hmem : cap.cap_type.membrane with
    | Public =>
      rw [c5_reduce_call_public_launches s dna c cap code hdna h hmem hcode]
      exact fun hcontra => ReduceOutcome.noConfusion hcontra
    | Zome =>
      rw [c2_reduce_call_denies_non_public s dna c cap hdna h (by simp [hmem])]
      exact fun hcontra => ReduceOutcome.noConfusion hcontra
    | Agent =>
      rw [c2_reduce_call_denies_non_public s dna c cap hdna h (by simp [hmem])]
      exact fun hcontra => ReduceOutcome.noConfusion hcontra
    | ApiKey =>
      rw [c2_reduce_call_denies_non_public s dna c cap hdna h (by simp [hmem])]
      exact fun hcontra => ReduceOutcome.noConfusion hcontra

/-- C8 witness: with `exDnaPublic`, capability resolution for `exCall`
succeeds, the wasm is present, and the concrete reduction is not the
fatal fault. -/
theorem c8_wasm_present_witness :
    (exDnaPublic.get_wasm_from_zome_name exCall.zome_name).isSome ∧
    reduce_call ⟨some exDnaPublic, []⟩ ⟨Action.Call exCall⟩ ≠
      ReduceOutcome.fatal
        "zome not found, Should have failed before when getting capability." := by
  have h := c8_wasm_present_after_cap_success exDnaPublic exCall exCap rfl
  exact ⟨h.1, h.2 ⟨some exDnaPublic, []⟩ rfl _⟩

/-- C9 (counterexample): the observer's send is wrapped in
`expect("observer called after done")`, so when a terminal value is
present but the receiver has vanished, evaluating the observer panics
the evaluating thread — the claim that evaluation must not crash is
false on this code. -/
theorem c9_observer_crash_counterexample :
    observer_sensor (some (ZomeFnResult.ok "{}")) false =
      ObserverStep.crashed "observer called after done" := rfl

/-- C9 (amended): a delivery failure is treated as a
programming-contract violation that panics the evaluating thread via
`expect` (never silently continuing); only while the receiver still
waits does the observer deliver and report satisfied, and with no
stored value it stays pending with no side effect. -/
theorem c9_observer_sensor_behavior (r : ZomeFnResult) (b : Bool) :
    observer_sensor (some r) true = ObserverStep.done ∧
    observer_sensor none b = ObserverStep.pending ∧
    observer_sensor (some r) false = ObserverStep.crashed "observer called after done" := by
  exact ⟨rfl, rfl, rfl⟩

/-- C10: `reduce_call` assumes its wrapper holds the `Call` variant:
any other action hits `unreachable!()`, a fatal fault, rather than
returning or recording anything. -/
theorem c10_non_call_action_fatal (s : NucleusState) (w : ActionWrapper)
    (h : ∀ c, w.action ≠ Action.Call c) :
    reduce_call s w = ReduceOutcome.fatal "internal error: entered unreachable code" := by
  cases ha : w.action with
  | Call c => exact absurd ha (h c)
  | Other => simp [reduce_call, ha]

/-- C10 witness: the `Other` action on the empty state is fatal. -/
theorem c10_non_call_action_fatal_witness :
    reduce_call ⟨none, []⟩ ⟨Action.Other⟩ =
      ReduceOutcome.fatal "internal error: entered unreachable code" := by
  exact c10_non_call_action_fatal ⟨none, []⟩ ⟨Action.Other⟩
    (fun c hc => Action.noConfusion hc)

end HolochainCall
